import Mathlib

/-!
Verification of the quantitative backtest / signal-generation core of the
`10-days-MA-touch` repository against its specification.

The embedding translates, from the Python sources:
  * `backtest_intraday.py`: `_pick_price`, `_add_minutes`, `simulate_day_v2`,
    `run_grid_search_v2` (price picking, per-day simulation, grid search);
  * `backtest_simple.py`: `_pick_close`;
  * `kospi_sp_beta.py`: the rolling-statistics pipeline of `calculate_signal`
    (rolling mean/std/percentile-rank with `shift(1)` lagging) and its final
    signal state machine, together with the strategy constants.

Modelling conventions:
  * Python time-of-day strings ("HH:MM") are modelled as their character
    lists (`List Char`); Python's string comparison is exactly the
    lexicographic order on the character list, which is the `<`/`≤` used here.
  * Python floats are modelled as `ℚ` where the code only does field
    arithmetic and comparisons, and as `ℝ` where a square root is taken
    (Sharpe, rolling std).  A float `NaN` arising from missing data is the
    `none` of an `Option`; every comparison against `NaN` in Python is
    `False`, which the `Option`-comparison helpers reproduce.
  * Fallible Python code (which raises `SystemExit` / `ZeroDivisionError`)
    is embedded in `Except String`.
-/

deriving instance DecidableEq for Except

/-! ## Time-of-day strings -/

/-- A time-of-day label, the character list of a Python string such as
"09:00".  Comparisons on these labels are Python's lexicographic string
comparisons. -/
abbrev TimeStr := List Char

/-- Python `str.strip()`: remove leading and trailing whitespace. -/
def trimChars (s : TimeStr) : TimeStr :=
  ((s.dropWhile Char.isWhitespace).reverse.dropWhile Char.isWhitespace).reverse

/-- Python `int(...)` on a decimal-digit string (the only shape fed to it by
`_add_minutes`): `none` when the string is empty or holds a non-digit. -/
def digitsToNat? (s : List Char) : Option ℕ :=
  if s ≠ [] ∧ s.all Char.isDigit then
    some (s.foldl (fun acc c => acc * 10 + (c.toNat - 48)) 0)
  else none

/-- Parse "HH:MM" the way `_add_minutes` does: split on the colon into
exactly two integer fields, then `datetime(2000, 1, 1, h, m)` validates
`h ≤ 23` and `m ≤ 59`.  Any failure raises `SystemExit` in Python, reported
here as `none`. -/
def parseHHMM (s : TimeStr) : Option (ℕ × ℕ) :=
  match s.splitOn ':' with
  | [hs, ms] =>
    match digitsToNat? hs, digitsToNat? ms with
    | some h, some m => if h ≤ 23 ∧ m ≤ 59 then some (h, m) else none
    | _, _ => none
  | _ => none

/-- `%02d` rendering of a number below 100. -/
def pad2 (n : ℕ) : TimeStr := [Nat.digitChar (n / 10 % 10), Nat.digitChar (n % 10)]

/-- `strftime("%H:%M")`. -/
def fmtHHMM (h m : ℕ) : TimeStr := pad2 h ++ [':'] ++ pad2 m

/-- Error message standing for the `SystemExit` raised by `_add_minutes` on a
malformed time string. -/
def badTimeMsg : String := "SystemExit: invalid time format"

/-- Error message standing for Python's `ZeroDivisionError`. -/
def zeroDivMsg : String := "ZeroDivisionError"

/-- `backtest_intraday._add_minutes`: strip the input, parse "HH:MM", add the
(possibly negative) minute offset via `datetime` arithmetic and format the
result as "HH:MM" again (`datetime` addition wraps modulo one day under
`%H:%M`).  A malformed input raises `SystemExit`. -/
def add_minutes (hhmm : TimeStr) (minutes : ℤ) : Except String TimeStr :=
  match parseHHMM (trimChars hhmm) with
  | none => .error badTimeMsg
  | some (h, m) =>
    let total : ℤ := ((h * 60 + m : ℕ) : ℤ) + minutes
    let t : ℕ := (total % 1440).toNat
    .ok (fmtHHMM (t / 60) (t % 60))

/-! ## Price samples and the price picker -/

/-- One intraday price sample: the engine only uses the "time" and "close"
columns of a row. -/
structure Sample where
  time : TimeStr
  close : ℚ
deriving DecidableEq

/-- One trading day's samples, in the dataframe's row order. -/
abbrev Day := List Sample

/-- `backtest_intraday._pick_price`: the close of the first row at exactly
the target time if any (`exact.iloc[0]`), else the close of the last row
with time strictly before the target (`before.iloc[-1]`), else `None`. -/
def pick_price (day : Day) (target : TimeStr) : Option ℚ :=
  match day.find? (fun s => s.time == target) with
  | some s => some s.close
  | none =>
    match (day.filter (fun s => decide (s.time < target))).getLast? with
    | some s => some s.close
    | none => none

/-- `backtest_simple._pick_close`: format the colon-free "HHMM" argument as
"HH:MM", and return the close of the *last* row at exactly that time
(`row.iloc[-1]`), or `None` when the time is absent. -/
def pick_close (df_day : Day) (hhmm : TimeStr) : Option ℚ :=
  let target := hhmm.take 2 ++ [':'] ++ hhmm.drop 2
  ((df_day.filter (fun s => s.time == target)).getLast?).map Sample.close

/-! ## Per-day simulation -/

/-- `backtest_intraday.simulate_day_v2`.  `.ok none` is the "no-trade"
outcome, `.ok (some r)` a trade with net return `r`, and `.error _` an
exception escaping the function (Python raises `SystemExit` from
`_add_minutes` on a malformed base time, and `ZeroDivisionError` when the
resolved base price is `0.0`, since the source guards only against `None`
prices before dividing by `open_base`). -/
def simulate_day_v2 (day : Day) (foreign_net : Option ℚ) (cost : ℚ)
    (base_time : TimeStr) (n m : ℤ)
    (auto_base_time : Bool) (foreign_filter : Bool) : Except String (Option ℚ) :=
  if foreign_filter && (foreign_net.elim true (fun f => decide (f ≤ 0))) then
    .ok none
  else if day.isEmpty then .ok none
  else
    let base_time_used :=
      if auto_base_time && (day.filter (fun s => decide (s.time ≤ base_time))).isEmpty
      then day.head?.elim base_time Sample.time else base_time
    match add_minutes base_time_used n with
    | .error e => .error e
    | .ok entry_time =>
      match add_minutes base_time_used m with
      | .error e => .error e
      | .ok exit_time =>
        let day_upto_exit := day.filter (fun s => decide (s.time ≤ exit_time))
        if day_upto_exit.isEmpty then .ok none
        else
          match pick_price day_upto_exit base_time_used with
          | none => .ok none
          | some open_base =>
            match pick_price day_upto_exit entry_time with
            | none => .ok none
            | some ref_close =>
              match pick_price day_upto_exit exit_time with
              | none => .ok none
              | some exit_px =>
                if open_base = 0 then
                  .error zeroDivMsg
                else
                  let direction : ℚ := if ref_close > open_base then 1 else -1
                  .ok (some (direction * (exit_px - open_base) / open_base - cost))

/-! ## Grid search -/

/-- One row of the multi-day price dataset (the engine uses only the
"date", "time" and "close" columns). -/
structure Row where
  date : ℤ
  time : TimeStr
  close : ℚ
deriving DecidableEq

/-- Projection of a dataset row onto the per-day columns used by
`simulate_day_v2`. -/
def rowSample (r : Row) : Sample := ⟨r.time, r.close⟩

/-- `df.groupby("date")`: the groups, keyed by date in ascending key order
(pandas sorts group keys), each group holding its rows in dataset order. -/
def groupByDate (rows : List Row) : List (ℤ × Day) :=
  (((rows.map Row.date).dedup).insertionSort (· ≤ ·)).map
    (fun d => (d, (rows.filter (fun r => decide (r.date = d))).map rowSample))

/-- The `daily_rets` list collected by `run_grid_search_v2` for one
`(n, m)` cell: `simulate_day_v2` over every day group, keeping the non-`None`
returns in day order.  The foreign-net value for a day is
`foreign_net_map.get(date)` when a map is supplied, else `None`. -/
def cellRets (fmap : Option (ℤ → Option ℚ)) (cost : ℚ) (base_time : TimeStr)
    (auto_base_time foreign_filter : Bool) (n m : ℤ) :
    List (ℤ × Day) → Except String (List ℚ)
  | [] => .ok []
  | (d, day) :: rest =>
    let foreign_net := match fmap with
      | none => none
      | some mp => mp d
    match simulate_day_v2 day foreign_net cost base_time n m auto_base_time foreign_filter with
    | .error e => .error e
    | .ok r =>
      match cellRets fmap cost base_time auto_base_time foreign_filter n m rest with
      | .error e => .error e
      | .ok rs => .ok (match r with | some x => x :: rs | none => rs)

/-- The `results` list of `run_grid_search_v2` before sorting, keyed over
`itertools.product(n_values, m_values)`: each cell keeps its `(n, m)` and its
collected daily returns; cells whose `daily_rets` is empty are skipped
(`if not daily_rets: continue`). -/
def gridCells (days : List (ℤ × Day)) (fmap : Option (ℤ → Option ℚ)) (cost : ℚ)
    (base_time : TimeStr) (auto_base_time foreign_filter : Bool) :
    List (ℤ × ℤ) → Except String (List (ℤ × ℤ × List ℚ))
  | [] => .ok []
  | (n, m) :: rest =>
    match cellRets fmap cost base_time auto_base_time foreign_filter n m days with
    | .error e => .error e
    | .ok rets =>
      match gridCells days fmap cost base_time auto_base_time foreign_filter rest with
      | .error e => .error e
      | .ok cs => .ok (if rets.isEmpty then cs else (n, m, rets) :: cs)

/-- The per-cell computation of `run_grid_search_v2` over the full parameter
product. -/
def run_grid_cells (rows : List Row) (n_values m_values : List ℤ) (cost : ℚ)
    (fmap : Option (ℤ → Option ℚ)) (base_time : TimeStr)
    (auto_base_time foreign_filter : Bool) : Except String (List (ℤ × ℤ × List ℚ)) :=
  gridCells (groupByDate rows) fmap cost base_time auto_base_time foreign_filter
    (n_values.product m_values)

/-- `rets.mean()`. -/
def listMean (r : List ℚ) : ℚ := r.sum / (r.length : ℚ)

/-- `rets.std(ddof=1)` squared: the sample variance with `n - 1` divisor,
`NaN` (`none`) when fewer than two observations are present, exactly as
pandas returns `NaN` for the standard deviation of a length-one series. -/
def sampleVar (r : List ℚ) : Option ℚ :=
  if r.length < 2 then none
  else some ((r.map (fun x => (x - listMean r) ^ 2)).sum / ((r.length : ℚ) - 1))

/-- `sharpe = float((rets.mean() / vol) * np.sqrt(252)) if vol > 0 else 0.0`
with `vol = rets.std(ddof=1)`: the comparison `vol > 0` is `False` both for
`vol = 0` and for `vol = NaN`, giving Sharpe exactly `0` in those cases. -/
noncomputable def sharpe (r : List ℚ) : ℝ :=
  match sampleVar r with
  | none => 0
  | some v =>
    if 0 < Real.sqrt (v : ℝ) then ((listMean r : ℚ) : ℝ) / Real.sqrt (v : ℝ) * Real.sqrt 252
    else 0

/-- `cum_return = float((1 + rets).prod() - 1)`. -/
def cumReturn (r : List ℚ) : ℚ := (r.map (fun x => 1 + x)).prod - 1

/-- Helper for `(1 + rets).cumprod()`: running product with accumulator. -/
def cumCurveAux (acc : ℚ) : List ℚ → List ℚ
  | [] => []
  | x :: t => (acc * (1 + x)) :: cumCurveAux (acc * (1 + x)) t

/-- `curve = (1 + rets).cumprod()`. -/
def cumCurve (r : List ℚ) : List ℚ := cumCurveAux 1 r

/-- Helper for `curve.cummax()`: running maximum with accumulator. -/
def runMaxAux (acc : ℚ) : List ℚ → List ℚ
  | [] => []
  | x :: t => (max acc x) :: runMaxAux (max acc x) t

/-- `curve.cummax()`. -/
def runningMax (l : List ℚ) : List ℚ :=
  match l with
  | [] => []
  | x :: t => x :: runMaxAux x t

/-- `dd = (curve / curve.cummax()) - 1`. -/
def ddList (r : List ℚ) : List ℚ :=
  (cumCurve r).zipWith (fun c p => c / p - 1) (runningMax (cumCurve r))

/-- `mdd = float(dd.min())`; the `[]` branch is unreachable because the
caller only evaluates cells with at least one collected return. -/
def mddVal (r : List ℚ) : ℚ :=
  match ddList r with
  | [] => 0
  | h :: t => t.foldl min h

/-- One output row of `run_grid_search_v2`. -/
structure GridRow where
  n : ℤ
  m : ℤ
  trades : ℕ
  cum_return : ℚ
  sharpe : ℝ
  mdd : ℚ

/-- The dictionary appended per cell by `run_grid_search_v2`. -/
noncomputable def mkRow (c : ℤ × ℤ × List ℚ) : GridRow :=
  ⟨c.1, c.2.1, c.2.2.length, cumReturn c.2.2, sharpe c.2.2, mddVal c.2.2⟩

/-- The `sort_values(["m", "n"])` key order on cells: ascending exit offset
`m`, then ascending entry offset `n`. -/
def cellLE (a b : ℤ × ℤ × List ℚ) : Prop :=
  a.2.1 < b.2.1 ∨ (a.2.1 = b.2.1 ∧ a.1 ≤ b.1)

instance : DecidableRel cellLE := fun a b => by
  unfold cellLE
  exact inferInstance

instance : IsTrans (ℤ × ℤ × List ℚ) cellLE :=
  ⟨by
    intro a b c hab hbc
    unfold cellLE at *
    omega⟩

instance : IsTotal (ℤ × ℤ × List ℚ) cellLE :=
  ⟨by
    intro a b
    unfold cellLE
    omega⟩

/-- `backtest_intraday.run_grid_search_v2`: per-cell daily simulation over
the grouped days, statistics per surviving cell, and the final
`sort_values(["m", "n"]).reset_index(drop=True)` ordering.  Building the row
dictionaries before or after sorting is indistinguishable because the row is
a function of its cell alone; the sort keys `(m, n)` determine the result
up to the ordering of identical rows, so a stable sort reproduces the
pandas output. -/
noncomputable def run_grid_search_v2 (rows : List Row) (n_values m_values : List ℤ)
    (cost : ℚ) (fmap : Option (ℤ → Option ℚ)) (base_time : TimeStr)
    (auto_base_time foreign_filter : Bool) : Except String (List GridRow) :=
  match run_grid_cells rows n_values m_values cost fmap base_time auto_base_time foreign_filter with
  | .error e => .error e
  | .ok cells => .ok ((cells.insertionSort cellLE).map mkRow)

/-! ## Mean-reversion signal engine: strategy constants and state machine -/

/-- `ENTRY = 2.15`. -/
def ENTRY : ℚ := 215 / 100

/-- `EXIT = 0.0`. -/
def EXIT : ℚ := 0

/-- `VIX_Q = 0.94`. -/
def VIX_Q : ℚ := 94 / 100

/-- `FX_Q = 0.96`. -/
def FX_Q : ℚ := 96 / 100

/-- `STOP_LOSS_MULT = 3.3`. -/
def STOP_LOSS_MULT : ℚ := 33 / 10

/-- The signal strings produced by `calculate_signal`. -/
inductive Signal where
  | NEUTRAL
  | CUT_RISK
  | STOP_LOSS
  | LONG
  | SHORT
  | HOLD
deriving DecidableEq

/-- Python `x <= c` where `x` may be `NaN` (`none`): `False` on `NaN`. -/
def oleB (x : Option ℚ) (c : ℚ) : Bool :=
  match x with
  | some v => decide (v ≤ c)
  | none => false

/-- Python `x >= c` where `x` may be `NaN`: `False` on `NaN`. -/
def ogeB (x : Option ℚ) (c : ℚ) : Bool :=
  match x with
  | some v => decide (c ≤ v)
  | none => false

/-- Python `x > c` where `x` may be `NaN`: `False` on `NaN`. -/
def ogtB (x : Option ℚ) (c : ℚ) : Bool :=
  match x with
  | some v => decide (c < v)
  | none => false

/-- Python `abs` on a possibly-`NaN` value (`abs(nan)` is `nan`). -/
def oabs (x : Option ℚ) : Option ℚ := x.map (fun v => |v|)

/-- The filter check and signal state machine at the end of
`kospi_sp_beta.calculate_signal`, applied to the most recent row's
`vix_rank`, `fx_shock` and `z` values (each `none` when the corresponding
float is `NaN`).  Returns `(is_allowed, signal)`. -/
def calculate_signal_row (vix_rank fx_shock z : Option ℚ) : Bool × Signal :=
  let is_vix_safe := oleB vix_rank VIX_Q
  let is_fx_safe := oleB fx_shock FX_Q
  let is_allowed := is_vix_safe && is_fx_safe
  let signal :=
    if !is_allowed then Signal.CUT_RISK
    else if ogtB (oabs z) (ENTRY * STOP_LOSS_MULT) then Signal.STOP_LOSS
    else if oleB z (-ENTRY) then Signal.LONG
    else if ogeB z ENTRY then Signal.SHORT
    else if oleB (oabs z) EXIT then Signal.NEUTRAL
    else Signal.HOLD
  (is_allowed, signal)

/-- First-match resolution of a prioritised rule list, the reading of the
state machine used by the specification. -/
def firstMatchSignal : List (Bool × Signal) → Signal → Signal
  | [], dflt => dflt
  | (c, s) :: rest, dflt => if c then s else firstMatchSignal rest dflt

/-- The specification's priority-ordered rule list for a row with gate flag
`allowed` and z-score `z`. -/
def specRules (allowed : Bool) (z : Option ℚ) : List (Bool × Signal) :=
  [(!allowed, Signal.CUT_RISK),
   (ogtB (oabs z) (ENTRY * STOP_LOSS_MULT), Signal.STOP_LOSS),
   (oleB z (-ENTRY), Signal.LONG),
   (ogeB z ENTRY, Signal.SHORT),
   (oleB (oabs z) EXIT, Signal.NEUTRAL)]

/-! ## Mean-reversion signal engine: rolling statistics pipeline

The pipeline of `calculate_signal` is embedded from the `rK`/`rS`/`rFX`
log-return and `VIX_t-1` columns onward (taking logarithms of the raw price
columns is the step immediately before and plays no role in the lag
structure).  The definitions are generic in an ordered field `K` together
with the square-root map used by `std`; the claims instantiate `K := ℝ`
with `Real.sqrt`, the model of the float computation. -/

section Rolling

variable {K : Type*} [LinearOrderedField K]

/-- Elementwise binary operation in pandas `NaN` semantics: `NaN` (`none`)
propagates. -/
def liftO2 (f : K → K → K) : Option K → Option K → Option K
  | some a, some b => some (f a b)
  | _, _ => none

/-- The list of values of a full window when every entry is present,
`none` as soon as one entry is `NaN`. -/
def allSome : List (Option K) → Option (List K)
  | [] => some []
  | none :: _ => none
  | some x :: t => (allSome t).map (x :: ·)

/-- `series.rolling(w)` window ending at index `i`: the `w` values at
indices `i - w + 1 .. i`, present only when the window is complete and free
of `NaN` (`min_periods` defaults to the window size, so pandas emits `NaN`
otherwise). -/
def windowAt (xs : List (Option K)) (w i : ℕ) : Option (List K) :=
  let seg := (xs.take (i + 1)).drop (i + 1 - w)
  if w ≤ i + 1 ∧ seg.length = w then allSome seg else none

/-- `series.rolling(w).apply(f)`: the length-preserving rolling map. -/
def rollingApply (w : ℕ) (f : List K → K) (xs : List (Option K)) : List (Option K) :=
  (List.range xs.length).map (fun i => (windowAt xs w i).map f)

/-- `series.shift(1)`: `NaN` in front, last entry dropped (the empty series
shifts to itself). -/
def shift1 : List (Option K) → List (Option K)
  | [] => []
  | x :: t => none :: (x :: t).dropLast

/-- Mean of a window. -/
def meanL (l : List K) : K := l.sum / (l.length : K)

/-- Sample variance (`ddof=1`) of a window. -/
def varL (l : List K) : K :=
  (l.map (fun x => (x - meanL l) ^ 2)).sum / ((l.length : K) - 1)

/-- `std` of a window, given the square-root map. -/
def stdL (sqrtK : K → K) (l : List K) : K := sqrtK (varL l)

/-- `rolling(w).rank(pct=True)` applied to a window: the average rank of the
window's last element among the window values, divided by the window size
(pandas' default `method="average"` tie handling). -/
def rankPct (l : List K) : K :=
  match l.getLast? with
  | none => 0
  | some x =>
    ((l.countP (fun y => decide (y < x)) : K)
      + ((l.countP (fun y => decide (y = x)) : K) + 1) / 2) / (l.length : K)

/-- `full_df["resid_mean"] = full_df["resid"].rolling(RES_W).mean().shift(1)`
with `RES_W = 60`. -/
def resid_mean (resid : List (Option K)) : List (Option K) :=
  shift1 (rollingApply 60 meanL resid)

/-- `full_df["resid_std"] = full_df["resid"].rolling(RES_W).std().shift(1)`. -/
def resid_std (sqrtK : K → K) (resid : List (Option K)) : List (Option K) :=
  shift1 (rollingApply 60 (stdL sqrtK) resid)

/-- `full_df["z"] = (full_df["resid"] - full_df["resid_mean"]) / full_df["resid_std"]`. -/
def zScore (sqrtK : K → K) (resid : List (Option K)) : List (Option K) :=
  (resid.zipWith (liftO2 (· - ·)) (resid_mean resid)).zipWith (liftO2 (· / ·))
    (resid_std sqrtK resid)

/-- `full_df["vix_rank"] = full_df["VIX_t-1"].rolling(W_FILTER).rank(pct=True).shift(1)`
with `W_FILTER = 252`. -/
def vix_rank (vix : List (Option K)) : List (Option K) :=
  shift1 (rollingApply 252 rankPct vix)

/-- `full_df["fx_mean"] = full_df["rFX"].rolling(W_FILTER).mean()` — no shift. -/
def fx_mean (rfx : List (Option K)) : List (Option K) :=
  rollingApply 252 meanL rfx

/-- `full_df["fx_std"] = full_df["rFX"].rolling(W_FILTER).std()` — no shift. -/
def fx_std (sqrtK : K → K) (rfx : List (Option K)) : List (Option K) :=
  rollingApply 252 (stdL sqrtK) rfx

/-- `full_df["fx_z"] = (full_df["rFX"] - full_df["fx_mean"]) / full_df["fx_std"]`
— computed without lag. -/
def fx_z (sqrtK : K → K) (rfx : List (Option K)) : List (Option K) :=
  (rfx.zipWith (liftO2 (· - ·)) (fx_mean rfx)).zipWith (liftO2 (· / ·))
    (fx_std sqrtK rfx)

/-- `full_df["fx_shock"] = full_df["fx_z"].abs().rolling(W_FILTER).rank(pct=True).shift(1)`. -/
def fx_shock (sqrtK : K → K) (rfx : List (Option K)) : List (Option K) :=
  shift1 (rollingApply 252 rankPct ((fx_z sqrtK rfx).map (Option.map (fun v => |v|))))

/-- The window the specification describes for a one-period-lagged rolling
statistic at day `i`: the `w`-window ending on day `i - 1`. -/
def lagWindow (xs : List (Option K)) (w i : ℕ) : Option (List K) :=
  if 1 ≤ i then windowAt xs w (i - 1) else none

end Rolling

/-! ## Specification-side auxiliary definitions and concrete data -/

/-- Maximum of a nonempty list of rationals (default `0` on `[]`). -/
def listMaxD (l : List ℚ) : ℚ :=
  match l with
  | [] => 0
  | h :: t => t.foldl max h

/-- Minimum of a nonempty list of rationals (default `0` on `[]`). -/
def listMinD (l : List ℚ) : ℚ :=
  match l with
  | [] => 0
  | h :: t => t.foldl min h

/-- The specification's drawdown at trade index `t`: running compounded
curve over the running maximum of that curve, minus one. -/
def specDrawdown (r : List ℚ) (t : ℕ) : ℚ :=
  (cumCurve r).getD t 0 / listMaxD ((cumCurve r).take (t + 1)) - 1

/-- All per-index specification drawdowns of a return list. -/
def specDrawdownList (r : List ℚ) : List ℚ :=
  (List.range r.length).map (specDrawdown r)

/-- The spec's picker-correctness example day: samples 09:00=100, 09:05=102. -/
def exDay : Day := [⟨"09:00".data, 100⟩, ⟨"09:05".data, 102⟩]

/-- A day with two samples at the same time-of-day (last one 102). -/
def dupDay : Day := [⟨"09:00".data, 100⟩, ⟨"09:00".data, 102⟩]

def t0859 : TimeStr := "08:59".data

def t0900 : TimeStr := "09:00".data

def t0902 : TimeStr := "09:02".data

def t0905 : TimeStr := "09:05".data

def t1000 : TimeStr := "10:00".data

/-- The colon-free "HHMM" form taken by `_pick_close`. -/
def hm0900 : TimeStr := "0900".data

/-- Example trading day: base 09:00=100, entry candidate 09:02, exit 10:00=110. -/
def tradeDay (entryPx : ℚ) : Day :=
  [⟨"09:00".data, 100⟩, ⟨"09:02".data, entryPx⟩, ⟨"10:00".data, 110⟩]

/-- Trading day whose base-time close is exactly zero. -/
def zeroBaseDay : Day :=
  [⟨"09:00".data, 0⟩, ⟨"09:02".data, 101⟩, ⟨"10:00".data, 110⟩]

/-- A two-row real-valued series for exercising the rolling pipeline. -/
def wSeries : List (Option ℝ) := [some 1, some 2]

/-- A three-row single-day dataset for exercising the grid search. -/
def gridRows : List Row :=
  [⟨1, "09:00".data, 100⟩, ⟨1, "09:02".data, 101⟩, ⟨1, "10:00".data, 110⟩]

/-- The cell list the grid search computes on `gridRows` with `n = 2`,
`m = 60`, zero cost and a passing foreign filter. -/
def gridCellsVal : List (ℤ × ℤ × List ℚ) :=
  [(2, 60, [(1 : ℚ) * (110 - 100) / 100 - 0])]

/-! ## Helper lemmas -/

theorem head?_filter {α : Type*} (p : α → Bool) :
    ∀ l : List α, (l.filter p).head? = l.find? p := by
  intro l
  induction l with
  | nil => rfl
  | cons a t ih =>
    by_cases h : p a <;> simp [List.filter_cons, List.find?_cons, h, ih]

theorem getLast?_filter {α : Type*} (p : α → Bool) (l : List α) :
    (l.filter p).getLast? = l.reverse.find? p := by
  rw [List.getLast?_eq_head?_reverse, ← List.filter_reverse, head?_filter]

theorem pairwise_getLast?_le {α : Type*} {R : α → α → Prop} :
    ∀ {l : List α} {x : α}, List.Pairwise R l → l.getLast? = some x →
      ∀ y ∈ l, y = x ∨ R y x := by
  intro l
  induction l with
  | nil => intro x _ hx; cases hx
  | cons a t ih =>
    intro x hp hx y hy
    match t, hx with
    | [], hx =>
      cases hx
      rcases List.mem_singleton.mp hy with rfl
      exact Or.inl rfl
    | b :: t', hx =>
      have hx' : (b :: t').getLast? = some x := hx
      rcases List.mem_cons.mp hy with rfl | hy'
      · exact Or.inr ((List.pairwise_cons.mp hp).1 x (List.mem_of_mem_getLast? hx'))
      · exact ih (List.pairwise_cons.mp hp).2 hx' y hy'

/-- Claim C3: for every day and target time-of-day, `pick_price` returns the
close of a sample at exactly the target time if one exists, otherwise the
close of the most recent sample strictly before the target time, otherwise
`none`; on the day 09:00=100, 09:05=102 a lookup at 09:02 gives 100, at
09:05 gives 102, and at 08:59 gives `none`. -/
theorem pick_price_contract (day : Day) (t : TimeStr)
    (hsorted : List.Pairwise (fun a b : Sample => a.time ≤ b.time) day) :
    ((∃ s ∈ day, s.time = t) →
      ∃ s ∈ day, s.time = t ∧ pick_price day t = some s.close)
    ∧ ((∀ s ∈ day, s.time ≠ t) → (∃ s ∈ day, s.time < t) →
      ∃ s ∈ day, s.time < t ∧ pick_price day t = some s.close ∧
        ∀ s' ∈ day, s'.time < t → s'.time ≤ s.time)
    ∧ ((∀ s ∈ day, s.time ≠ t ∧ ¬s.time < t) → pick_price day t = none)
    ∧ (pick_price exDay t0902 = some 100 ∧ pick_price exDay t0905 = some 102
       ∧ pick_price exDay t0859 = none) := by
  refine ⟨?_, ?_, ?_, by decide, by decide, by decide⟩
  · rintro ⟨s, hs, hst⟩
    have hsome : (day.find? (fun s => s.time == t)).isSome := by
      rw [List.find?_isSome]
      exact ⟨s, hs, by simpa using hst⟩
    obtain ⟨s', hs'⟩ := Option.isSome_iff_exists.mp hsome
    refine ⟨s', List.mem_of_find?_eq_some hs', ?_, ?_⟩
    · simpa using List.find?_some hs'
    · unfold pick_price
      rw [hs']
  · intro hne hex
    have hfind : day.find? (fun s => s.time == t) = none := by
      rw [List.find?_eq_none]
      intro x hx
      simpa using hne x hx
    rcases hex with ⟨s, hs, hst⟩
    have hmem : s ∈ day.filter (fun s => decide (s.time < t)) :=
      List.mem_filter.mpr ⟨hs, by simpa using hst⟩
    have hne' : day.filter (fun s => decide (s.time < t)) ≠ [] :=
      List.ne_nil_of_mem hmem
    obtain ⟨s₀, hs₀⟩ :=
      Option.isSome_iff_exists.mp (List.getLast?_isSome.mpr hne')
    have hs₀mem := List.mem_of_mem_getLast? hs₀
    have hs₀day := (List.mem_filter.mp hs₀mem).1
    have hs₀lt : s₀.time < t := by
      simpa using (List.mem_filter.mp hs₀mem).2
    refine ⟨s₀, hs₀day, hs₀lt, ?_, ?_⟩
    · unfold pick_price
      rw [hfind, hs₀]
    · intro s' hs' hlt
      have hmem' : s' ∈ day.filter (fun s => decide (s.time < t)) :=
        List.mem_filter.mpr ⟨hs', by simpa using hlt⟩
      rcases pairwise_getLast?_le (hsorted.filter _) hs₀ s' hmem' with rfl | hle
      · exact le_refl _
      · exact hle
  · intro h
    have hfind : day.find? (fun s => s.time == t) = none := by
      rw [List.find?_eq_none]
      intro x hx
      simpa using (h x hx).1
    have hfilter : day.filter (fun s => decide (s.time < t)) = [] := by
      rw [List.filter_eq_nil_iff]
      intro x hx
      simpa using (h x hx).2
    unfold pick_price
    rw [hfind, hfilter]
    rfl

/-- Witness for C3 at the spec's example day. -/
theorem pick_price_contract_witness :
    pick_price exDay t0902 = some 100 ∧ pick_price exDay t0905 = some 102
      ∧ pick_price exDay t0859 = none :=
  (pick_price_contract exDay t0902 (by decide)).2.2.2

/-- Counterexample to claim C9 as stated: on a day holding 09:00=100 then
09:00=102, the exact-time lookup of `pick_price` returns the close of the
*first* duplicate (100), not the last (102); `pick_close` does return the
last. -/
theorem pick_price_first_dup_counterexample :
    pick_price dupDay t0900 = some 100 ∧ pick_price dupDay t0900 ≠ some 102
      ∧ pick_close dupDay hm0900 = some 102 := by
  refine ⟨by decide, by decide, by decide⟩

/-- Claim C9 (amended): on a day with duplicate samples at a time-of-day,
`pick_close` returns the close of the last duplicate in insertion order,
while `pick_price`'s exact-time branch returns the close of the first
duplicate. -/
theorem pick_dup_amended (day : Day) (t hm : TimeStr)
    (hhm : hm.take 2 ++ [':'] ++ hm.drop 2 = t)
    (hex : ∃ s ∈ day, s.time = t) :
    (∃ l₁ s l₂, day = l₁ ++ s :: l₂ ∧ s.time = t ∧ (∀ s' ∈ l₂, s'.time ≠ t) ∧
      pick_close day hm = some s.close)
    ∧ (∃ l₁ s l₂, day = l₁ ++ s :: l₂ ∧ s.time = t ∧ (∀ s' ∈ l₁, s'.time ≠ t) ∧
      pick_price day t = some s.close) := by
  rcases hex with ⟨s, hs, hst⟩
  constructor
  · have hsome : (day.reverse.find? (fun s => s.time == t)).isSome := by
      rw [List.find?_isSome]
      exact ⟨s, List.mem_reverse.mpr hs, by simpa using hst⟩
    obtain ⟨s', hs'⟩ := Option.isSome_iff_exists.mp hsome
    obtain ⟨hps', as, bs, hsplit, hpre⟩ := List.find?_eq_some.mp hs'
    have hday : day = bs.reverse ++ s' :: as.reverse := by
      have := congrArg List.reverse hsplit
      simpa [List.reverse_append] using this
    refine ⟨bs.reverse, s', as.reverse, hday, by simpa using hps', ?_, ?_⟩
    · intro s'' hs''
      have : (!(s''.time == t)) = true := hpre s'' (List.mem_reverse.mp hs'')
      simpa using this
    · simp only [pick_close, hhm]
      rw [getLast?_filter, hs']
      rfl
  · have hsome : (day.find? (fun s => s.time == t)).isSome := by
      rw [List.find?_isSome]
      exact ⟨s, hs, by simpa using hst⟩
    obtain ⟨s', hs'⟩ := Option.isSome_iff_exists.mp hsome
    obtain ⟨hps', as, bs, hsplit, hpre⟩ := List.find?_eq_some.mp hs'
    refine ⟨as, s', bs, hsplit, by simpa using hps', ?_, ?_⟩
    · intro s'' hs''
      have : (!(s''.time == t)) = true := hpre s'' hs''
      simpa using this
    · unfold pick_price
      rw [hs']

/-- Witness for the amended C9 at the duplicate day. -/
theorem pick_dup_amended_witness :
    (∃ l₁ s l₂, dupDay = l₁ ++ s :: l₂ ∧ s.time = t0900 ∧
      (∀ s' ∈ l₂, s'.time ≠ t0900) ∧ pick_close dupDay hm0900 = some s.close)
    ∧ (∃ l₁ s l₂, dupDay = l₁ ++ s :: l₂ ∧ s.time = t0900 ∧
      (∀ s' ∈ l₁, s'.time ≠ t0900) ∧ pick_price dupDay t0900 = some s.close) :=
  pick_dup_amended dupDay t0900 hm0900 (by decide) (by decide)

/-- Claim C4: whenever `simulate_day_v2` produces a trade, the net return is
`direction * (exit - base) / base - cost` with direction `+1` exactly when
the entry price strictly exceeds the base price and `-1` otherwise, so a tie
takes direction `-1`; the cost is subtracted exactly once. -/
theorem simulate_day_v2_trade_form (day : Day) (foreign_net : Option ℚ)
    (cost : ℚ) (base_time : TimeStr) (n m : ℤ) (ab ff : Bool) (r : ℚ)
    (h : simulate_day_v2 day foreign_net cost base_time n m ab ff = .ok (some r)) :
    ∃ btu et xt ob rc ex,
      add_minutes btu n = .ok et ∧ add_minutes btu m = .ok xt ∧
      pick_price (day.filter (fun s => decide (s.time ≤ xt))) btu = some ob ∧
      pick_price (day.filter (fun s => decide (s.time ≤ xt))) et = some rc ∧
      pick_price (day.filter (fun s => decide (s.time ≤ xt))) xt = some ex ∧
      ob ≠ 0 ∧
      r = (if rc > ob then 1 else -1) * (ex - ob) / ob - cost ∧
      (rc = ob → r = -1 * (ex - ob) / ob - cost) ∧
      (ob < rc → r = (ex - ob) / ob - cost) := by
  unfold simulate_day_v2 at h
  dsimp only at h
  repeat' split at h
  all_goals try exact Except.noConfusion h
  all_goals try exact Option.noConfusion (Except.ok.inj h)
  all_goals simp only [Except.ok.injEq, Option.some.injEq] at h
  all_goals subst h
  all_goals
    refine ⟨_, _, _, _, _, _, by assumption, by assumption, by assumption,
      by assumption, by assumption, by assumption, ?_, ?_, ?_⟩
  all_goals try
    first
    | (intro htie
       subst htie
       first
       | rfl
       | exact absurd (by assumption) (lt_irrefl _)
       | simp_all)
  all_goals try
    first
    | (intro hlt
       first
       | rw [one_mul]
       | exact absurd hlt (by assumption)
       | simp_all)
  all_goals split <;> simp_all

/-- Witness for C4: the spec's tie example — base 100, entry 100, exit 110
with zero cost trades with direction `-1` and gross return `-0.10`. -/
theorem simulate_day_v2_trade_form_witness :
    ∃ btu et xt ob rc ex,
      add_minutes btu 2 = .ok et ∧ add_minutes btu 60 = .ok xt ∧
      pick_price ((tradeDay 100).filter (fun s => decide (s.time ≤ xt))) btu = some ob ∧
      pick_price ((tradeDay 100).filter (fun s => decide (s.time ≤ xt))) et = some rc ∧
      pick_price ((tradeDay 100).filter (fun s => decide (s.time ≤ xt))) xt = some ex ∧
      ob ≠ 0 ∧
      (-1 * (110 - 100) / 100 - 0 : ℚ)
        = (if rc > ob then 1 else -1) * (ex - ob) / ob - 0 ∧
      (rc = ob → (-1 * (110 - 100) / 100 - 0 : ℚ) = -1 * (ex - ob) / ob - 0) ∧
      (ob < rc → (-1 * (110 - 100) / 100 - 0 : ℚ) = (ex - ob) / ob - 0) :=
  simulate_day_v2_trade_form (tradeDay 100) (some 1) 0 t0900 2 60 true true
    (-1 * (110 - 100) / 100 - 0) rfl

/-- Claim C5 (code bug): a day whose resolved base price is exactly `0`
while the filter passes and all three prices resolve makes `simulate_day_v2`
raise `ZeroDivisionError` (`gross_ret = direction * (exit_px - open_base) /
open_base` with `open_base = 0.0`), aborting the run instead of returning
the "no-trade" missing-price outcome the specification promises. -/
theorem simulate_day_v2_zero_base_divzero :
    simulate_day_v2 zeroBaseDay (some 1) (5 / 10000) t0900 2 60 true true
      = .error zeroDivMsg := rfl

theorem listMean_replicate (k : ℕ) (x : ℚ) (hk : k ≠ 0) :
    listMean (List.replicate k x) = x := by
  simp only [listMean, List.sum_replicate, List.length_replicate, nsmul_eq_mul]
  field_simp

theorem sampleVar_replicate (k : ℕ) (x : ℚ) (hk : 2 ≤ k) :
    sampleVar (List.replicate k x) = some 0 := by
  have hm : listMean (List.replicate k x) = x := listMean_replicate k x (by omega)
  simp only [sampleVar, List.length_replicate]
  rw [if_neg (by omega)]
  rw [hm]
  simp [List.map_replicate, List.sum_replicate]

/-- Claim C6: for every nonempty return list, the reported Sharpe ratio is
`mean / sample-std * sqrt 252` when the sample standard deviation is
strictly positive, and exactly `0` otherwise — in particular when the
sample variance is `NaN` (a single return) or when the returns are all
identical.  The value lives in `ℝ`, never `NaN` or infinite. -/
theorem sharpe_cases (r : List ℚ) (h : r ≠ []) :
    (sampleVar r = none → sharpe r = 0)
    ∧ (∀ v : ℚ, sampleVar r = some v → 0 < v →
        sharpe r = (listMean r : ℝ) / Real.sqrt (v : ℝ) * Real.sqrt 252)
    ∧ (∀ v : ℚ, sampleVar r = some v → v ≤ 0 → sharpe r = 0)
    ∧ (∀ x : ℚ, r = List.replicate r.length x → sharpe r = 0) := by
  refine ⟨?_, ?_, ?_, ?_⟩
  · intro hv
    simp only [sharpe, hv]
  · intro v hv hvpos
    simp only [sharpe, hv]
    rw [if_pos (Real.sqrt_pos.mpr (by exact_mod_cast hvpos))]
  · intro v hv hvle
    simp only [sharpe, hv]
    rw [if_neg]
    intro hc
    exact absurd (by exact_mod_cast Real.sqrt_pos.mp hc) (not_lt.mpr hvle)
  · intro x hx
    rcases Nat.lt_or_ge r.length 2 with hlen | hlen
    · simp only [sharpe, sampleVar, if_pos hlen]
    · have hv : sampleVar r = some 0 := by
        conv_lhs => rw [hx]
        exact sampleVar_replicate r.length x hlen
      simp only [sharpe, hv]
      rw [if_neg]
      simp [Real.sqrt_eq_zero']

/-- Witness for C6: three identical returns give Sharpe exactly `0`. -/
theorem sharpe_cases_witness : sharpe [(5 : ℚ), 5, 5] = 0 :=
  (sharpe_cases [5, 5, 5] (by decide)).2.2.2 5 rfl

theorem length_cumCurveAux (l : List ℚ) : ∀ acc, (cumCurveAux acc l).length = l.length := by
  induction l with
  | nil => intro acc; rfl
  | cons x t ih => intro acc; simp [cumCurveAux, ih]

theorem length_cumCurve (r : List ℚ) : (cumCurve r).length = r.length :=
  length_cumCurveAux r 1

theorem length_runMaxAux (l : List ℚ) : ∀ acc, (runMaxAux acc l).length = l.length := by
  induction l with
  | nil => intro acc; rfl
  | cons x t ih => intro acc; simp [runMaxAux, ih]

theorem length_runningMax (l : List ℚ) : (runningMax l).length = l.length := by
  cases l with
  | nil => rfl
  | cons x t => simp [runningMax, length_runMaxAux]

theorem runMaxAux_getElem? (l : List ℚ) :
    ∀ (acc : ℚ) (j : ℕ), j < l.length →
      (runMaxAux acc l)[j]? = some ((l.take (j + 1)).foldl max acc) := by
  induction l with
  | nil => intro acc j hj; simp at hj
  | cons x t ih =>
    intro acc j hj
    cases j with
    | zero => simp [runMaxAux]
    | succ j =>
      have hj' : j < t.length := by simpa using hj
      simp only [runMaxAux, List.getElem?_cons_succ]
      rw [ih (max acc x) j hj']
      simp [List.take_succ_cons]

theorem runningMax_getElem? (l : List ℚ) (t : ℕ) (ht : t < l.length) :
    (runningMax l)[t]? = some (listMaxD (l.take (t + 1))) := by
  cases l with
  | nil => simp at ht
  | cons x tl =>
    cases t with
    | zero => simp [runningMax, listMaxD]
    | succ t =>
      have ht' : t < tl.length := by simpa using ht
      simp only [runningMax, List.getElem?_cons_succ]
      rw [runMaxAux_getElem? tl x t ht']
      simp [List.take_succ_cons, listMaxD]

theorem ddList_eq_specDrawdownList (r : List ℚ) : ddList r = specDrawdownList r := by
  apply List.ext_getElem?
  intro i
  rcases Nat.lt_or_ge i r.length with hi | hi
  · have hci : i < (cumCurve r).length := by rwa [length_cumCurve]
    rw [ddList, List.getElem?_zipWith, List.getElem?_eq_getElem hci,
      runningMax_getElem? _ i (by rwa [length_cumCurve])]
    rw [specDrawdownList, List.getElem?_map, List.getElem?_range hi]
    rw [Option.map_some']
    rw [specDrawdown, List.getD_eq_getElem _ 0 hci]
  · have h1 : (ddList r)[i]? = none := by
      apply List.getElem?_eq_none
      simp only [ddList, List.length_zipWith, length_cumCurve, length_runningMax]
      omega
    have h2 : (specDrawdownList r)[i]? = none := by
      apply List.getElem?_eq_none
      simp only [specDrawdownList, List.length_map, List.length_range]
      omega
    rw [h1, h2]

theorem mddVal_eq_listMinD_ddList (r : List ℚ) : mddVal r = listMinD (ddList r) := by
  unfold mddVal listMinD
  rfl

/-- Claim C8: for a cell with at least one trade, the reported maximum
drawdown is the minimum over trade indices of (running compounded curve /
running maximum of that curve) - 1; on returns `[+0.10, -0.20, +0.05]` this
minimum is exactly `0.88 / 1.10 - 1 = -1/5`. -/
theorem mdd_spec (n m : ℤ) (rets : List ℚ) (h : rets ≠ []) :
    (mkRow (n, m, rets)).mdd = listMinD (specDrawdownList rets)
    ∧ mddVal [1 / 10, -(2 / 10), 5 / 100] = -(1 / 5) := by
  constructor
  · show mddVal rets = _
    rw [mddVal_eq_listMinD_ddList, ddList_eq_specDrawdownList]
  · norm_num [mddVal, ddList, cumCurve, cumCurveAux, runningMax, runMaxAux,
      listMinD, List.zipWith, max_def, min_def]

/-- Witness for C8 at the spec's example return list. -/
theorem mdd_spec_witness : mddVal [1 / 10, -(2 / 10), 5 / 100] = -(1 / 5) :=
  (mdd_spec 2 60 [1 / 10, -(2 / 10), 5 / 100] (by decide)).2

/-- Claim C1: `calculate_signal` resolves the most recent row's signal by
the first matching rule in the priority order CUT_RISK, STOP_LOSS, LONG,
SHORT, NEUTRAL, HOLD; and at the boundaries, when the risk gate passes,
`z = ENTRY` yields SHORT, `z = -ENTRY` yields LONG, and `|z| = EXIT` yields
NEUTRAL (each boundary value being inside the stop-loss cutoff). -/
theorem calculate_signal_priority (vr fs z : Option ℚ) :
    (calculate_signal_row vr fs z).2
      = firstMatchSignal (specRules (oleB vr VIX_Q && oleB fs FX_Q) z) Signal.HOLD
    ∧ ((oleB vr VIX_Q && oleB fs FX_Q) = true →
        ((z = some ENTRY → (calculate_signal_row vr fs z).2 = Signal.SHORT)
         ∧ (z = some (-ENTRY) → (calculate_signal_row vr fs z).2 = Signal.LONG)
         ∧ (∀ zq : ℚ, z = some zq → |zq| = EXIT →
              (calculate_signal_row vr fs z).2 = Signal.NEUTRAL))) := by
  constructor
  · rfl
  · intro hallow
    refine ⟨?_, ?_, ?_⟩
    · intro hz
      subst hz
      have hstop : ogtB (oabs (some ENTRY)) (ENTRY * STOP_LOSS_MULT) = false := by
        simp only [ogtB, oabs, Option.map_some']
        rw [decide_eq_false]
        norm_num [ENTRY, STOP_LOSS_MULT, not_lt, abs_le]
      have hlong : oleB (some ENTRY) (-ENTRY) = false := by
        simp only [oleB]
        rw [decide_eq_false]
        norm_num [ENTRY]
      have hshort : ogeB (some ENTRY) ENTRY = true := by
        simp only [ogeB]
        exact decide_eq_true le_rfl
      simp [calculate_signal_row, hallow, hstop, hlong, hshort]
    · intro hz
      subst hz
      have hstop : ogtB (oabs (some (-ENTRY))) (ENTRY * STOP_LOSS_MULT) = false := by
        simp only [ogtB, oabs, Option.map_some']
        rw [decide_eq_false]
        norm_num [ENTRY, STOP_LOSS_MULT, not_lt, abs_le]
      have hlong : oleB (some (-ENTRY)) (-ENTRY) = true := by
        simp only [oleB]
        exact decide_eq_true le_rfl
      simp [calculate_signal_row, hallow, hstop, hlong]
    · intro zq hz habs
      subst hz
      have hzq : zq = 0 := by
        have : |zq| = 0 := by simpa [EXIT] using habs
        exact abs_eq_zero.mp this
      subst hzq
      have hstop : ogtB (oabs (some (0 : ℚ))) (ENTRY * STOP_LOSS_MULT) = false := by
        simp only [ogtB, oabs, Option.map_some']
        rw [decide_eq_false]
        norm_num [ENTRY, STOP_LOSS_MULT, not_lt, abs_le]
      have hlong : oleB (some (0 : ℚ)) (-ENTRY) = false := by
        simp only [oleB]
        rw [decide_eq_false]
        norm_num [ENTRY]
      have hshort : ogeB (some (0 : ℚ)) ENTRY = false := by
        simp only [ogeB]
        rw [decide_eq_false]
        norm_num [ENTRY]
      have hexit : oleB (oabs (some (0 : ℚ))) EXIT = true := by
        simp only [oleB, oabs, Option.map_some']
        exact decide_eq_true (by norm_num [EXIT])
      simp [calculate_signal_row, hallow, hstop, hlong, hshort, hexit]

/-- Witness for C1: a passing gate with `z` exactly at `ENTRY` gives SHORT. -/
theorem calculate_signal_priority_witness :
    (calculate_signal_row (some (1 / 2)) (some (1 / 2)) (some ENTRY)).2 = Signal.SHORT :=
  ((calculate_signal_priority (some (1 / 2)) (some (1 / 2)) (some ENTRY)).2
    (by norm_num [oleB, VIX_Q, FX_Q])).1 rfl

section RollingLemmas

variable {K : Type*} [LinearOrderedField K]

theorem length_shift1 (xs : List (Option K)) : (shift1 xs).length = xs.length := by
  cases xs with
  | nil => rfl
  | cons x t => simp [shift1]

theorem length_rollingApply (w : ℕ) (f : List K → K) (xs : List (Option K)) :
    (rollingApply w f xs).length = xs.length := by
  simp [rollingApply]

theorem getElem?_shift1_zero (xs : List (Option K)) (h : xs ≠ []) :
    (shift1 xs)[0]? = some none := by
  cases xs with
  | nil => exact absurd rfl h
  | cons x t => simp [shift1]

theorem getElem?_shift1 (xs : List (Option K)) (i : ℕ) (h1 : 1 ≤ i)
    (h2 : i < xs.length) : (shift1 xs)[i]? = xs[i - 1]? := by
  cases xs with
  | nil => simp at h2
  | cons x t =>
    obtain ⟨j, rfl⟩ : ∃ j, i = j + 1 := ⟨i - 1, by omega⟩
    simp only [shift1, List.getElem?_cons_succ]
    rw [List.dropLast_eq_take, List.getElem?_take, if_pos (by simp at h2 ⊢; omega)]
    rfl

theorem getElem?_rollingApply (w : ℕ) (f : List K → K) (xs : List (Option K))
    (i : ℕ) (h : i < xs.length) :
    (rollingApply w f xs)[i]? = some ((windowAt xs w i).map f) := by
  simp only [rollingApply]
  rw [List.getElem?_map, List.getElem?_range h]
  rfl

theorem windowAt_eq_none (xs : List (Option K)) (w i : ℕ) (h : i + 1 < w) :
    windowAt xs w i = none := by
  simp only [windowAt]
  rw [if_neg]
  rintro ⟨hc, -⟩
  omega

theorem lagged_rank_getLast?_none (xs : List (Option K)) (hne : xs ≠ [])
    (hlen : xs.length ≤ 252) :
    (shift1 (rollingApply 252 rankPct xs)).getLast? = some none := by
  have hxs : 0 < xs.length := List.length_pos.mpr hne
  have hl : (shift1 (rollingApply 252 rankPct xs)).length = xs.length := by
    rw [length_shift1, length_rollingApply]
  rw [List.getLast?_eq_getElem?, hl]
  by_cases h1 : xs.length = 1
  · rw [h1]
    exact getElem?_shift1_zero _ (by
      intro hc
      have := congrArg List.length hc
      rw [length_rollingApply] at this
      simp [h1] at this)
  · have h2 : 1 ≤ xs.length - 1 := by omega
    rw [getElem?_shift1 _ _ h2 (by rw [length_rollingApply]; omega),
      getElem?_rollingApply _ _ _ _ (by omega),
      windowAt_eq_none _ _ _ (by omega)]
    rfl

theorem length_fx_z (sqrtK : K → K) (rfx : List (Option K)) :
    (fx_z sqrtK rfx).length = rfx.length := by
  simp [fx_z, fx_mean, fx_std, List.length_zipWith, length_rollingApply]

end RollingLemmas

/-- Claim C10: when the merged series is too short for the W_FILTER=252
window (fewer than 253 rows), the lagged volatility-percentile rank and
FX-shock rank of the most recent row are `NaN`; and a `NaN` rank makes the
`NaN <= cutoff` comparison false, the risk gate fail, and the signal
resolve to CUT_RISK. -/
theorem cut_risk_on_short_history (vix rfx : List (Option ℝ))
    (hv : vix ≠ []) (hlv : vix.length ≤ 252)
    (hr : rfx ≠ []) (hlr : rfx.length ≤ 252) :
    (vix_rank vix).getLast? = some none
    ∧ (fx_shock Real.sqrt rfx).getLast? = some none
    ∧ (∀ fv zv : Option ℚ, (calculate_signal_row none fv zv).1 = false
        ∧ (calculate_signal_row none fv zv).2 = Signal.CUT_RISK)
    ∧ (∀ vv zv : Option ℚ, (calculate_signal_row vv none zv).1 = false
        ∧ (calculate_signal_row vv none zv).2 = Signal.CUT_RISK) := by
  refine ⟨?_, ?_, ?_, ?_⟩
  · exact lagged_rank_getLast?_none vix hv hlv
  · apply lagged_rank_getLast?_none
    · intro hc
      have := congrArg List.length hc
      rw [List.length_map, length_fx_z] at this
      exact hr (List.length_eq_zero.mp this)
    · rw [List.length_map, length_fx_z]
      exact hlr
  · intro fv zv
    constructor <;> simp [calculate_signal_row, oleB]
  · intro vv zv
    constructor <;> simp [calculate_signal_row, oleB]

/-- Witness for C10 on a one-row series. -/
theorem cut_risk_on_short_history_witness :
    (vix_rank [some (1 : ℝ)]).getLast? = some none
    ∧ (fx_shock Real.sqrt [some (1 : ℝ)]).getLast? = some none
    ∧ (∀ fv zv : Option ℚ, (calculate_signal_row none fv zv).1 = false
        ∧ (calculate_signal_row none fv zv).2 = Signal.CUT_RISK)
    ∧ (∀ vv zv : Option ℚ, (calculate_signal_row vv none zv).1 = false
        ∧ (calculate_signal_row vv none zv).2 = Signal.CUT_RISK) :=
  cut_risk_on_short_history [some 1] [some 1] (by simp) (by norm_num)
    (by simp) (by norm_num)

/-- Claim C2: in the pipeline of `calculate_signal`, the residual z-score at
day `i` is `(resid_i - mean) / std` with the rolling mean and std taken over
the `W_BETA = 60` window ending on day `i - 1` (the `shift(1)` lag); the
volatility-percentile rank at day `i` is the rolling percentile rank over
the `W_FILTER = 252` window ending on day `i - 1`; the FX z-score itself is
computed from the *unlagged* window ending on day `i`, and only its
percentile-rank step is lagged by one period. -/
theorem lag_structure (resid vix rfx : List (Option ℝ)) (i : ℕ)
    (h1 : 1 ≤ i) (hres : i < resid.length) (hvix : i < vix.length)
    (hrfx : i < rfx.length) :
    (∀ x : Option ℝ, resid[i]? = some x →
       (zScore Real.sqrt resid)[i]? = some (liftO2 (· / ·)
          (liftO2 (· - ·) x ((lagWindow resid 60 i).map meanL))
          ((lagWindow resid 60 i).map (stdL Real.sqrt))))
    ∧ (vix_rank vix)[i]? = some ((lagWindow vix 252 i).map rankPct)
    ∧ (∀ x : Option ℝ, rfx[i]? = some x →
       (fx_z Real.sqrt rfx)[i]? = some (liftO2 (· / ·)
          (liftO2 (· - ·) x ((windowAt rfx 252 i).map meanL))
          ((windowAt rfx 252 i).map (stdL Real.sqrt))))
    ∧ (fx_shock Real.sqrt rfx)[i]? = some
        ((lagWindow ((fx_z Real.sqrt rfx).map (Option.map (fun v => |v|))) 252 i).map
          rankPct) := by
  refine ⟨?_, ?_, ?_, ?_⟩
  · intro x hx
    have hmean : (resid_mean resid)[i]? = some ((lagWindow resid 60 i).map meanL) := by
      rw [resid_mean, getElem?_shift1 _ _ h1 (by rw [length_rollingApply]; exact hres),
        getElem?_rollingApply _ _ _ _ (by omega), lagWindow, if_pos h1]
    have hstd : (resid_std Real.sqrt resid)[i]?
        = some ((lagWindow resid 60 i).map (stdL Real.sqrt)) := by
      rw [resid_std, getElem?_shift1 _ _ h1 (by rw [length_rollingApply]; exact hres),
        getElem?_rollingApply _ _ _ _ (by omega), lagWindow, if_pos h1]
    rw [zScore]
    simp only [List.getElem?_zipWith, hx, hmean, hstd]
  · rw [vix_rank, getElem?_shift1 _ _ h1 (by rw [length_rollingApply]; exact hvix),
      getElem?_rollingApply _ _ _ _ (by omega), lagWindow, if_pos h1]
  · intro x hx
    have hmean : (fx_mean rfx)[i]? = some ((windowAt rfx 252 i).map meanL) := by
      rw [fx_mean, getElem?_rollingApply _ _ _ _ hrfx]
    have hstd : (fx_std Real.sqrt rfx)[i]?
        = some ((windowAt rfx 252 i).map (stdL Real.sqrt)) := by
      rw [fx_std, getElem?_rollingApply _ _ _ _ hrfx]
    rw [fx_z]
    simp only [List.getElem?_zipWith, hx, hmean, hstd]
  · rw [fx_shock, getElem?_shift1 _ _ h1
      (by rw [length_rollingApply, List.length_map, length_fx_z]; exact hrfx),
      getElem?_rollingApply _ _ _ _ (by rw [List.length_map, length_fx_z]; omega),
      lagWindow, if_pos h1]

/-- Witness for C2 at a two-row series. -/
theorem lag_structure_witness :
    ((∀ x : Option ℝ, wSeries[1]? = some x →
       (zScore Real.sqrt wSeries)[1]? = some (liftO2 (· / ·)
          (liftO2 (· - ·) x ((lagWindow wSeries 60 1).map meanL))
          ((lagWindow wSeries 60 1).map (stdL Real.sqrt))))
    ∧ (vix_rank wSeries)[1]? = some ((lagWindow wSeries 252 1).map rankPct)
    ∧ (∀ x : Option ℝ, wSeries[1]? = some x →
       (fx_z Real.sqrt wSeries)[1]? = some (liftO2 (· / ·)
          (liftO2 (· - ·) x ((windowAt wSeries 252 1).map meanL))
          ((windowAt wSeries 252 1).map (stdL Real.sqrt))))
    ∧ (fx_shock Real.sqrt wSeries)[1]? = some
        ((lagWindow ((fx_z Real.sqrt wSeries).map (Option.map (fun v => |v|)))
          252 1).map rankPct)) :=
  lag_structure wSeries wSeries wSeries 1
    (by norm_num) (by norm_num [wSeries]) (by norm_num [wSeries]) (by norm_num [wSeries])

theorem gridCells_ok_mem (days : List (ℤ × Day)) (fmap : Option (ℤ → Option ℚ))
    (cost : ℚ) (bt : TimeStr) (ab ff : Bool) :
    ∀ (ps : List (ℤ × ℤ)) (cs : List (ℤ × ℤ × List ℚ)),
      gridCells days fmap cost bt ab ff ps = .ok cs →
      ∀ n m rets, ((n, m, rets) ∈ cs ↔
        ((n, m) ∈ ps ∧ cellRets fmap cost bt ab ff n m days = .ok rets ∧ rets ≠ [])) := by
  intro ps
  induction ps with
  | nil =>
    intro cs h n m rets
    obtain rfl : ([] : List (ℤ × ℤ × List ℚ)) = cs := Except.ok.inj h
    simp
  | cons p rest ih =>
    intro cs h n m rets
    obtain ⟨n0, m0⟩ := p
    rw [gridCells] at h
    split at h
    · exact Except.noConfusion h
    · rename_i rets0 hr0
      split at h
      · exact Except.noConfusion h
      · rename_i cs' hrest
        obtain rfl := Except.ok.inj h
        by_cases hemp : rets0.isEmpty
        · rw [if_pos hemp, ih cs' hrest n m rets]
          constructor
          · rintro ⟨hmem, hcr, hne⟩
            exact ⟨List.mem_cons_of_mem _ hmem, hcr, hne⟩
          · rintro ⟨hmem, hcr, hne⟩
            rcases List.mem_cons.mp hmem with heq | hmem'
            · simp only [Prod.mk.injEq] at heq
              obtain ⟨rfl, rfl⟩ := heq
              have hr : rets = rets0 := Except.ok.inj (hcr.symm.trans hr0)
              exfalso
              apply hne
              rw [hr]
              exact List.isEmpty_iff.mp hemp
            · exact ⟨hmem', hcr, hne⟩
        · rw [if_neg hemp]
          constructor
          · intro hmem
            rcases List.mem_cons.mp hmem with heq | hmem'
            · simp only [Prod.mk.injEq] at heq
              obtain ⟨rfl, rfl, rfl⟩ := heq
              refine ⟨List.mem_cons_self _ _, hr0, ?_⟩
              intro hc
              rw [hc] at hemp
              exact hemp rfl
            · have := (ih cs' hrest n m rets).mp hmem'
              exact ⟨List.mem_cons_of_mem _ this.1, this.2⟩
          · rintro ⟨hmem, hcr, hne⟩
            rcases List.mem_cons.mp hmem with heq | hmem'
            · simp only [Prod.mk.injEq] at heq
              obtain ⟨rfl, rfl⟩ := heq
              have hr : rets = rets0 := Except.ok.inj (hcr.symm.trans hr0)
              rw [hr]
              exact List.mem_cons_self _ _
            · exact List.mem_cons_of_mem _ ((ih cs' hrest n m rets).mpr ⟨hmem', hcr, hne⟩)

theorem gridCells_ok_keys_sublist (days : List (ℤ × Day)) (fmap : Option (ℤ → Option ℚ))
    (cost : ℚ) (bt : TimeStr) (ab ff : Bool) :
    ∀ (ps : List (ℤ × ℤ)) (cs : List (ℤ × ℤ × List ℚ)),
      gridCells days fmap cost bt ab ff ps = .ok cs →
      (cs.map (fun c => (c.1, c.2.1))).Sublist ps := by
  intro ps
  induction ps with
  | nil =>
    intro cs h
    obtain rfl : ([] : List (ℤ × ℤ × List ℚ)) = cs := Except.ok.inj h
    exact List.nil_sublist _
  | cons p rest ih =>
    intro cs h
    obtain ⟨n0, m0⟩ := p
    rw [gridCells] at h
    split at h
    · exact Except.noConfusion h
    · rename_i rets0 hr0
      split at h
      · exact Except.noConfusion h
      · rename_i cs' hrest
        obtain rfl := Except.ok.inj h
        by_cases hemp : rets0.isEmpty
        · rw [if_pos hemp]
          exact (ih cs' hrest).cons _
        · rw [if_neg hemp]
          simpa using (ih cs' hrest).cons₂ (n0, m0)

/-- Claim C7: given that the per-cell pass succeeds, the grid-search output
holds exactly one row per `(n, m)` pair of the parameter product that
collected at least one return — zero-trade pairs are omitted — and the rows
are the (stable) sort of the surviving cells by ascending exit offset `m`
then ascending entry offset `n`: the output is pairwise ordered by that
key, its key multiset is exactly the surviving cells' key multiset, and
with duplicate-free offset iterables the keys are duplicate-free. -/
theorem grid_output_spec (rows : List Row) (nv mv : List ℤ) (cost : ℚ)
    (fmap : Option (ℤ → Option ℚ)) (bt : TimeStr) (ab ff : Bool)
    (cells : List (ℤ × ℤ × List ℚ))
    (hcells : run_grid_cells rows nv mv cost fmap bt ab ff = .ok cells) :
    run_grid_search_v2 rows nv mv cost fmap bt ab ff
      = .ok ((cells.insertionSort cellLE).map mkRow)
    ∧ (∀ n m rets, ((n, m, rets) ∈ cells ↔
        ((n, m) ∈ nv.product mv
         ∧ cellRets fmap cost bt ab ff n m (groupByDate rows) = .ok rets
         ∧ rets ≠ [])))
    ∧ List.Pairwise (fun r1 r2 : GridRow => r1.m < r2.m ∨ (r1.m = r2.m ∧ r1.n ≤ r2.n))
        ((cells.insertionSort cellLE).map mkRow)
    ∧ (((cells.insertionSort cellLE).map mkRow).map (fun r => (r.n, r.m))).Perm
        (cells.map (fun c => (c.1, c.2.1)))
    ∧ (nv.Nodup → mv.Nodup →
        (((cells.insertionSort cellLE).map mkRow).map (fun r => (r.n, r.m))).Nodup) := by
  have hg : gridCells (groupByDate rows) fmap cost bt ab ff (nv.product mv) = .ok cells := hcells
  have hkeys : ((cells.insertionSort cellLE).map mkRow).map (fun r => (r.n, r.m))
      = (cells.insertionSort cellLE).map (fun c => (c.1, c.2.1)) := by
    rw [List.map_map]
    rfl
  refine ⟨?_, ?_, ?_, ?_, ?_⟩
  · simp only [run_grid_search_v2, hcells]
  · exact gridCells_ok_mem _ _ _ _ _ _ _ _ hg
  · have hs : List.Pairwise cellLE (cells.insertionSort cellLE) :=
      List.sorted_insertionSort cellLE cells
    exact List.pairwise_map.mpr (hs.imp (fun hab => hab))
  · rw [hkeys]
    exact (List.perm_insertionSort cellLE cells).map _
  · intro hn hm
    have hsub : (cells.map (fun c => (c.1, c.2.1))).Sublist (nv.product mv) :=
      gridCells_ok_keys_sublist _ _ _ _ _ _ _ _ hg
    have hnd : (cells.map (fun c => (c.1, c.2.1))).Nodup :=
      hsub.nodup (hn.product hm)
    rw [hkeys]
    exact (((List.perm_insertionSort cellLE cells).map _).nodup_iff).mpr hnd

/-- Witness for C7 on a one-day, one-cell dataset. -/
theorem grid_output_spec_witness :
    run_grid_search_v2 gridRows [2] [60] 0 (some (fun _ => some 1)) t0900 true true
      = .ok ((gridCellsVal.insertionSort cellLE).map mkRow)
    ∧ (∀ n m rets, ((n, m, rets) ∈ gridCellsVal ↔
        ((n, m) ∈ ([2] : List ℤ).product [60]
         ∧ cellRets (some (fun _ => some 1)) 0 t0900 true true n m
             (groupByDate gridRows) = .ok rets
         ∧ rets ≠ [])))
    ∧ List.Pairwise (fun r1 r2 : GridRow => r1.m < r2.m ∨ (r1.m = r2.m ∧ r1.n ≤ r2.n))
        ((gridCellsVal.insertionSort cellLE).map mkRow)
    ∧ (((gridCellsVal.insertionSort cellLE).map mkRow).map (fun r => (r.n, r.m))).Perm
        (gridCellsVal.map (fun c => (c.1, c.2.1)))
    ∧ (([2] : List ℤ).Nodup → ([60] : List ℤ).Nodup →
        (((gridCellsVal.insertionSort cellLE).map mkRow).map (fun r => (r.n, r.m))).Nodup) :=
  grid_output_spec gridRows [2] [60] 0 (some (fun _ => some 1)) t0900 true true
    gridCellsVal rfl
